import Mathlib

/-
  Verification of the CV-chatbot backend (chatbot_backend/main.py and
  chatbot_backend/config.py) against its natural-language specification.

  The Python code is shallowly embedded: pure fragments become Lean
  functions, the in-process session map and the cv_embeddings table become
  explicit state records, external effects (embedding API calls, SQL
  statements, the LLM chain invocation) are recorded in explicit traces,
  and code that may raise returns an Except value.
-/

namespace CVChatbot

/-! ## Basic data model -/

/-- Document metadata, modelling the JSON metadata dict of a LangChain
Document as an association list from string keys to string values. -/
abbrev Metadata := List (String × String)

/-- Embedding of langchain.schema.Document: page content plus metadata. -/
structure Doc where
  page_content : String
  metadata : Metadata
deriving DecidableEq, Repr

/-! ## HTTP route table (main.py decorators on app) -/

/-- HTTP method of a route registration. -/
inductive Method where
  | get
  | post
deriving DecidableEq, Repr

/-- Embedding of the FastAPI route registrations in main.py: each pair is
one app.get or app.post decorator, in source order.  The startup event
handler is not a route. -/
def appRoutes : List (Method × String) :=
  [ (Method.get,  "/"),
    (Method.get,  "/health"),
    (Method.post, "/chat"),
    (Method.get,  "/sample-questions"),
    (Method.post, "/reset-session"),
    (Method.get,  "/active-sessions") ]

/-! ## Source extraction with deduplication (chat_with_cv_bot, lines 450-458) -/

/-- Embedding of doc.metadata.get("title", "CV Section"). -/
def titleOf (d : Doc) : String :=
  (d.metadata.lookup "title").getD "CV Section"

/-- Embedding of the deduplication loop in chat_with_cv_bot: seen is the
seen_titles set, the returned list is the sources list being built. -/
def extract_sources_go (seen : List String) : List Doc → List String
  | [] => []
  | d :: ds =>
    let title := titleOf d
    if title ∈ seen then
      extract_sources_go seen ds
    else
      title :: extract_sources_go (title :: seen) ds

/-- Embedding of the sources-extraction block of chat_with_cv_bot, started
with an empty seen_titles set and an empty sources list. -/
def extract_sources (docs : List Doc) : List String :=
  extract_sources_go [] docs

/-- Reference first-occurrence deduplication: keeps the first occurrence of
every element, in order.  Used to characterise extract_sources. -/
def dedupFirst : List String → List String
  | [] => []
  | t :: ts => t :: (dedupFirst ts).filter (fun x => decide (x ≠ t))

theorem extract_sources_go_eq (docs : List Doc) :
    ∀ seen : List String,
      extract_sources_go seen docs
        = (dedupFirst (docs.map titleOf)).filter (fun x => decide (x ∉ seen)) := by
  induction docs with
  | nil => intro seen; simp [extract_sources_go, dedupFirst]
  | cons d ds ih =>
    intro seen
    by_cases hmem : titleOf d ∈ seen
    · have lhs : extract_sources_go seen (d :: ds) = extract_sources_go seen ds := by
        simp [extract_sources_go, hmem]
      rw [lhs, ih]
      simp only [List.map_cons, dedupFirst, List.filter_cons]
      have hd : (decide (titleOf d ∉ seen)) = false := by simp [hmem]
      rw [hd]
      simp only [Bool.false_eq_true, if_false, List.filter_filter]
      apply List.filter_congr
      intro x _
      by_cases hx : x ∈ seen
      · simp [hx]
      · have hne : x ≠ titleOf d := fun h => hx (h ▸ hmem)
        simp [hx, hne]
    · have lhs : extract_sources_go seen (d :: ds)
          = titleOf d :: extract_sources_go (titleOf d :: seen) ds := by
        simp [extract_sources_go, hmem]
      rw [lhs, ih]
      simp only [List.map_cons, dedupFirst, List.filter_cons]
      have hd : (decide (titleOf d ∉ seen)) = true := by simp [hmem]
      rw [hd]
      simp only [if_pos, List.filter_filter]
      congr 1
      apply List.filter_congr
      intro x _
      by_cases hx : x = titleOf d
      · simp [hx]
      · by_cases hseen : x ∈ seen
        · simp [hx, hseen]
        · simp [hx, hseen]

theorem dedupFirst_nodup (l : List String) : (dedupFirst l).Nodup := by
  induction l with
  | nil => simp [dedupFirst]
  | cons t ts ih =>
    simp only [dedupFirst, List.nodup_cons]
    refine ⟨?_, ih.filter _⟩
    intro hmem
    have := List.of_mem_filter hmem
    simp at this

theorem dedupFirst_sublist (l : List String) : (dedupFirst l).Sublist l := by
  induction l with
  | nil => simp [dedupFirst]
  | cons t ts ih =>
    simp only [dedupFirst]
    exact List.Sublist.cons₂ t ((List.filter_sublist (dedupFirst ts)).trans ih)

theorem mem_dedupFirst (l : List String) (x : String) :
    x ∈ dedupFirst l ↔ x ∈ l := by
  induction l with
  | nil => simp [dedupFirst]
  | cons t ts ih =>
    simp only [dedupFirst, List.mem_cons, List.mem_filter]
    constructor
    · rintro (h | ⟨h, _⟩)
      · exact Or.inl h
      · exact Or.inr (ih.mp h)
    · rintro (h | h)
      · exact Or.inl h
      · by_cases hx : x = t
        · exact Or.inl hx
        · exact Or.inr ⟨ih.mpr h, by simp [hx]⟩

theorem extract_sources_eq_dedupFirst (docs : List Doc) :
    extract_sources docs = dedupFirst (docs.map titleOf) := by
  rw [extract_sources, extract_sources_go_eq]
  simp

/-! ## Association-list lemmas for the session map and metadata -/

theorem lookup_mem {β : Type} {l : List (String × β)} {a : String} {b : β}
    (h : l.lookup a = some b) : (a, b) ∈ l := by
  induction l with
  | nil => simp [List.lookup] at h
  | cons p rest ih =>
    rw [List.lookup] at h
    split at h
    · next he =>
      cases h
      have ha : a = p.1 := by simpa using he
      simp [ha]
    · next he =>
      exact List.mem_cons_of_mem _ (ih h)

theorem lookup_eq_none_of_not_mem_keys {β : Type} {l : List (String × β)}
    {a : String} (h : a ∉ l.map Prod.fst) : l.lookup a = none := by
  induction l with
  | nil => simp [List.lookup]
  | cons p rest ih =>
    have h1 : (a == p.1) = false := by
      simp only [beq_eq_false_iff_ne, ne_eq]
      intro hc
      exact h (by simp [hc])
    have h2 : a ∉ rest.map Prod.fst := by
      intro hc
      exact h (by simp [hc])
    rw [List.lookup, h1]
    exact ih h2

theorem lookup_append_single_self {β : Type} {l : List (String × β)}
    {a : String} (b : β) (h : l.lookup a = none) :
    (l ++ [(a, b)]).lookup a = some b := by
  induction l with
  | nil => simp [List.lookup]
  | cons p rest ih =>
    rw [List.lookup] at h
    rw [List.cons_append, List.lookup]
    split at h
    · exact absurd h (by simp)
    · exact ih h

theorem lookup_append_single_other {β : Type} (l : List (String × β))
    (a t : String) (b : β) (h : t ≠ a) :
    (l ++ [(a, b)]).lookup t = l.lookup t := by
  induction l with
  | nil =>
    have ht : (t == a) = false := by simpa using h
    simp [List.lookup, ht]
  | cons p rest ih =>
    rw [List.cons_append, List.lookup, List.lookup]
    cases he : (t == p.1)
    · exact ih
    · rfl

/-! ## Session state: conversation_chains and get_conversation_chain -/

/-- Embedding of ConversationBufferWindowMemory as constructed in
get_conversation_chain. -/
structure Memory where
  k : Nat
  memory_key : String
  return_messages : Bool
  output_key : String
deriving DecidableEq, Repr

/-- Embedding of the retriever built by vectorstore.as_retriever in
get_conversation_chain: its search type and its search_kwargs. -/
structure Retriever where
  search_type : String
  search_k : Nat
  filter_duplicate_documents : Bool
deriving DecidableEq, Repr

/-- Embedding of a ConversationalRetrievalChain object.  The id field is
the object identity: distinct ids model distinct Python objects. -/
structure Chain where
  id : Nat
  memory : Memory
  retriever : Retriever
  return_source_documents : Bool
deriving DecidableEq, Repr

/-- Process-wide mutable state of main.py that the claims concern: the
conversation_chains dict (insertion-ordered, modelled as an association
list with unique keys) plus a fresh-object counter giving identity to
newly allocated chain objects. -/
structure AppState where
  conversation_chains : List (String × Chain)
  nextChainId : Nat
deriving DecidableEq, Repr

/-- Initial state: conversation_chains starts as the empty dict. -/
def initState : AppState := { conversation_chains := [], nextChainId := 0 }

/-- Embedding of get_conversation_chain: if the session id is not a key of
conversation_chains, build a fresh chain (memory window k = 10, retriever
with search_kwargs k = 4) and store it; return the stored chain. -/
def get_conversation_chain (session_id : String) (st : AppState) :
    Chain × AppState :=
  match st.conversation_chains.lookup session_id with
  | some chain => (chain, st)
  | none =>
    let memory : Memory :=
      { k := 10, memory_key := "chat_history",
        return_messages := true, output_key := "answer" }
    let chain : Chain :=
      { id := st.nextChainId, memory := memory,
        retriever := { search_type := "similarity", search_k := 4,
                       filter_duplicate_documents := true },
        return_source_documents := true }
    (chain,
     { conversation_chains := st.conversation_chains ++ [(session_id, chain)],
       nextChainId := st.nextChainId + 1 })

/-- State effect of one chat request on the session map: the /chat handler
calls get_conversation_chain with the request session id. -/
def chatStep (session_id : String) (st : AppState) : AppState :=
  (get_conversation_chain session_id st).2

/-- Embedding of the body of the reset_session endpoint.  It returns the
JSON message of the 200 response as an Except value: the except branch of
the Python handler would raise HTTPException 500, and no branch of the
try body does. -/
def reset_session (session_id : String) (st : AppState) :
    Except (Nat × String) String × AppState :=
  if (st.conversation_chains.lookup session_id).isSome then
    (Except.ok ("Session " ++ session_id ++ " reset successfully"),
     { st with conversation_chains :=
         st.conversation_chains.eraseP (fun p => p.1 == session_id) })
  else
    (Except.ok ("Session " ++ session_id ++ " not found"), st)

/-- Operations on the session map reachable from the HTTP surface. -/
inductive Op where
  | chat (session_id : String)
  | reset (session_id : String)
deriving DecidableEq, Repr

/-- One endpoint call acting on the session map. -/
def applyOp (st : AppState) : Op → AppState
  | Op.chat sid => chatStep sid st
  | Op.reset sid => (reset_session sid st).2

/-- State of the session map after a sequence of endpoint calls, starting
from the empty map of a fresh process. -/
def runOps (ops : List Op) : AppState := ops.foldl applyOp initState

/-- Well-formedness of the process state: dict keys are unique, chain
object identities are unique and below the allocation counter, and every
stored chain carries the constants of get_conversation_chain. -/
def WF (st : AppState) : Prop :=
  (st.conversation_chains.map Prod.fst).Nodup ∧
  (st.conversation_chains.map (fun p => p.2.id)).Nodup ∧
  ∀ p ∈ st.conversation_chains,
    p.2.id < st.nextChainId ∧ p.2.memory.k = 10 ∧ p.2.retriever.search_k = 4

instance (st : AppState) : Decidable (WF st) := by
  unfold WF
  infer_instance

theorem WF_initState : WF initState := by
  constructor <;> simp [initState]

/-- Configuration of the RecursiveCharacterTextSplitter constructed in
initialize_ai_components. -/
structure TextSplitterConfig where
  chunk_size : Nat
  chunk_overlap : Nat
  separators : List String
deriving DecidableEq, Repr

/-- Embedding of the text splitter built in initialize_ai_components and
applied to every CV document. -/
def text_splitter : TextSplitterConfig :=
  { chunk_size := 500, chunk_overlap := 50,
    separators := ["\n\n", "\n", ".", "!", "?", ",", " ", ""] }

theorem not_mem_keys_of_lookup_eq_none {β : Type} {l : List (String × β)}
    {a : String} (h : l.lookup a = none) : a ∉ l.map Prod.fst := by
  induction l with
  | nil => simp
  | cons p rest ih =>
    rw [List.lookup] at h
    split at h
    · exact absurd h (by simp)
    · next he =>
      have hne : a ≠ p.1 := by simpa using he
      simp only [List.map_cons, List.mem_cons]
      rintro (hc | hc)
      · exact hne hc
      · exact ih h hc

theorem get_lookup_self (sid : String) (st : AppState) :
    ((get_conversation_chain sid st).2.conversation_chains).lookup sid
      = some (get_conversation_chain sid st).1 := by
  unfold get_conversation_chain
  cases h : st.conversation_chains.lookup sid with
  | some c => simpa using h
  | none => simpa using lookup_append_single_self _ h

theorem WF_chatStep {st : AppState} (h : WF st) (sid : String) :
    WF (chatStep sid st) := by
  obtain ⟨hkeys, hids, hall⟩ := h
  unfold chatStep get_conversation_chain
  cases hl : st.conversation_chains.lookup sid with
  | some c => exact ⟨hkeys, hids, hall⟩
  | none =>
    have hsid : sid ∉ st.conversation_chains.map Prod.fst :=
      not_mem_keys_of_lookup_eq_none hl
    refine ⟨?_, ?_, ?_⟩
    · rw [List.map_append]
      refine List.Nodup.append hkeys (by simp) ?_
      intro x hx hb
      simp only [List.map_cons, List.map_nil, List.mem_singleton] at hb
      exact hsid (hb ▸ hx)
    · rw [List.map_append]
      refine List.Nodup.append hids (by simp) ?_
      intro x hx hb
      simp only [List.map_cons, List.map_nil, List.mem_singleton] at hb
      rcases List.mem_map.mp hx with ⟨p, hp, hpid⟩
      have := (hall p hp).1
      omega
    · intro p hp
      rcases List.mem_append.mp hp with h1 | h2
      · obtain ⟨hlt, hk, hr⟩ := hall p h1
        exact ⟨Nat.lt_succ_of_lt hlt, hk, hr⟩
      · simp only [List.mem_singleton] at h2
        subst h2
        exact ⟨Nat.lt_succ_self _, rfl, rfl⟩

theorem WF_reset {st : AppState} (h : WF st) (sid : String) :
    WF (reset_session sid st).2 := by
  obtain ⟨hkeys, hids, hall⟩ := h
  unfold reset_session
  by_cases hc : (st.conversation_chains.lookup sid).isSome
  · rw [if_pos hc]
    refine ⟨?_, ?_, ?_⟩
    · exact List.Nodup.sublist ((List.eraseP_sublist _).map _) hkeys
    · exact List.Nodup.sublist ((List.eraseP_sublist _).map _) hids
    · intro p hp
      exact hall p (List.Sublist.subset (List.eraseP_sublist _) hp)
  · rw [if_neg hc]
    exact ⟨hkeys, hids, hall⟩

theorem WF_applyOp {st : AppState} (h : WF st) (op : Op) : WF (applyOp st op) := by
  cases op with
  | chat sid => exact WF_chatStep h sid
  | reset sid => exact WF_reset h sid

theorem WF_foldl (ops : List Op) :
    ∀ st : AppState, WF st → WF (ops.foldl applyOp st) := by
  induction ops with
  | nil => intro st h; exact h
  | cons op rest ih => intro st h; exact ih _ (WF_applyOp h op)

theorem WF_runOps (ops : List Op) : WF (runOps ops) :=
  WF_foldl ops initState WF_initState

theorem length_le_chatStep (st : AppState) (sid : String) :
    st.conversation_chains.length
      ≤ (chatStep sid st).conversation_chains.length := by
  unfold chatStep get_conversation_chain
  cases hl : st.conversation_chains.lookup sid <;> simp

theorem length_le_foldl_chatStep (sids : List String) :
    ∀ st : AppState, st.conversation_chains.length
      ≤ (sids.foldl (fun s i => chatStep i s) st).conversation_chains.length := by
  induction sids with
  | nil => intro st; exact le_refl _
  | cons sid rest ih =>
    intro st
    exact le_trans (length_le_chatStep st sid) (ih _)

theorem lookup_eraseP_self {β : Type} (l : List (String × β)) (sid : String)
    (hnd : (l.map Prod.fst).Nodup) :
    (l.eraseP (fun p => p.1 == sid)).lookup sid = none := by
  induction l with
  | nil => simp [List.lookup]
  | cons p rest ih =>
    rw [List.eraseP_cons]
    simp only [List.map_cons, List.nodup_cons] at hnd
    cases hpe : (p.1 == sid)
    · simp only [cond_false]
      rw [List.lookup]
      have hne : (sid == p.1) = false := by
        simp only [beq_eq_false_iff_ne, ne_eq] at hpe ⊢
        exact fun hc => hpe hc.symm
      rw [hne]
      exact ih hnd.2
    · simp only [cond_true]
      have hp1 : p.1 = sid := by simpa using hpe
      exact lookup_eq_none_of_not_mem_keys (hp1 ▸ hnd.1)

theorem lookup_eraseP_other {β : Type} (l : List (String × β)) (sid t : String)
    (h : t ≠ sid) :
    (l.eraseP (fun p => p.1 == sid)).lookup t = l.lookup t := by
  induction l with
  | nil => simp
  | cons p rest ih =>
    rw [List.eraseP_cons]
    cases hpe : (p.1 == sid)
    · simp only [cond_false]
      rw [List.lookup, List.lookup]
      cases he : (t == p.1)
      · exact ih
      · rfl
    · simp only [cond_true]
      have hp1 : p.1 = sid := by simpa using hpe
      rw [List.lookup]
      have hne : (t == p.1) = false := by
        simp only [beq_eq_false_iff_ne, ne_eq]
        exact fun hc => h (hp1 ▸ hc)
      rw [hne]

theorem get_of_lookup_some {sid : String} {st : AppState} {c : Chain}
    (h : st.conversation_chains.lookup sid = some c) :
    get_conversation_chain sid st = (c, st) := by
  unfold get_conversation_chain
  rw [h]

/-! ## Claim theorems on the session map -/

/-- C3 counterexample: the claim that the HTTP layer routes three or four
endpoints in total is false of the code: main.py registers six routes. -/
theorem appRoutes_not_three_or_four :
    ¬(appRoutes.length = 3 ∨ appRoutes.length = 4) := by decide

/-- C3 amended: the HTTP layer routes exactly six endpoints, with six
distinct paths. -/
theorem appRoutes_count :
    appRoutes.length = 6 ∧ (appRoutes.map Prod.snd).Nodup := by decide

/-- C2: a chat request whose session id is not yet a key appends exactly
one entry to conversation_chains; a chat request on a known key leaves the
whole state unchanged; across any sequence of chat requests the size of
the map never decreases. -/
theorem conversation_chains_unbounded (st : AppState) (sid : String)
    (sids : List String) :
    (st.conversation_chains.lookup sid = none →
      ∃ c, (chatStep sid st).conversation_chains
            = st.conversation_chains ++ [(sid, c)]) ∧
    ((st.conversation_chains.lookup sid).isSome → chatStep sid st = st) ∧
    st.conversation_chains.length
      ≤ (sids.foldl (fun s i => chatStep i s) st).conversation_chains.length := by
  refine ⟨?_, ?_, length_le_foldl_chatStep sids st⟩
  · intro h
    unfold chatStep get_conversation_chain
    rw [h]
    exact ⟨_, rfl⟩
  · intro h
    obtain ⟨c, hc⟩ := Option.isSome_iff_exists.mp h
    unfold chatStep
    rw [get_of_lookup_some hc]

/-- C2 witness: from the empty map, a chat request on session a appends
the entry for a. -/
theorem conversation_chains_unbounded_witness :
    ∃ c, (chatStep "a" initState).conversation_chains
          = initState.conversation_chains ++ [("a", c)] :=
  (conversation_chains_unbounded initState "a" []).1 rfl

/-- C4: get_conversation_chain is get-or-create: calling it again with the
same session id returns exactly the chain stored by the first call and
changes nothing, and in a well-formed state two calls with distinct
session ids return distinct chain objects. -/
theorem get_conversation_chain_get_or_create (st : AppState) (s1 s2 : String)
    (hwf : WF st) (hne : s1 ≠ s2) :
    (get_conversation_chain s1 (get_conversation_chain s1 st).2
       = get_conversation_chain s1 st) ∧
    ((get_conversation_chain s2 (get_conversation_chain s1 st).2).1
       ≠ (get_conversation_chain s1 st).1) := by
  have hwf1 : WF (get_conversation_chain s1 st).2 := WF_chatStep hwf s1
  have hm1 : (s1, (get_conversation_chain s1 st).1)
      ∈ (get_conversation_chain s1 st).2.conversation_chains :=
    lookup_mem (get_lookup_self s1 st)
  constructor
  · rw [get_of_lookup_some (get_lookup_self s1 st)]
  · cases h2 : (get_conversation_chain s1 st).2.conversation_chains.lookup s2 with
    | some c2 =>
      rw [get_of_lookup_some h2]
      intro hEq
      have hm2 : (s2, c2) ∈ (get_conversation_chain s1 st).2.conversation_chains :=
        lookup_mem h2
      have hc : c2 = (get_conversation_chain s1 st).1 := hEq
      have hpair := List.inj_on_of_nodup_map hwf1.2.1 hm1 hm2 (by simp [hc])
      exact hne (congrArg Prod.fst hpair)
    | none =>
      have hlt := (hwf1.2.2 _ hm1).1
      conv_lhs => rw [get_conversation_chain, h2]
      intro hEq
      have hid : (get_conversation_chain s1 st).1.id
          = (get_conversation_chain s1 st).2.nextChainId := by
        rw [← hEq]
      have hlt2 : (get_conversation_chain s1 st).1.id
          < (get_conversation_chain s1 st).2.nextChainId := hlt
      omega

/-- C4 witness: with the empty initial map, sessions a and b receive
distinct chain objects. -/
theorem get_conversation_chain_get_or_create_witness :
    (get_conversation_chain "b" (get_conversation_chain "a" initState).2).1
      ≠ (get_conversation_chain "a" initState).1 :=
  (get_conversation_chain_get_or_create initState "a" "b" WF_initState
    (by decide)).2

/-- C6: along every operation sequence from process start, every stored
conversation chain has memory window k equal to 10 and retriever search
k equal to 4, and the text splitter is configured with chunk size 500 and
chunk overlap 50. -/
theorem fixed_integer_constants (ops : List Op) :
    (∀ p ∈ (runOps ops).conversation_chains,
        p.2.memory.k = 10 ∧ p.2.retriever.search_k = 4) ∧
    text_splitter.chunk_size = 500 ∧ text_splitter.chunk_overlap = 50 :=
  ⟨fun p hp => ((WF_runOps ops).2.2 p hp).2, rfl, rfl⟩

/-- The chain object created for the first session of a fresh process. -/
def chain0 : Chain :=
  { id := 0,
    memory := { k := 10, memory_key := "chat_history",
                return_messages := true, output_key := "answer" },
    retriever := { search_type := "similarity", search_k := 4,
                   filter_duplicate_documents := true },
    return_source_documents := true }

/-- C6 witness: the chain stored for session a after one chat request has
the fixed constants. -/
theorem fixed_integer_constants_witness :
    chain0.memory.k = 10 ∧ chain0.retriever.search_k = 4 :=
  (fixed_integer_constants [Op.chat "a"]).1 ("a", chain0) (by decide)

/-- C10: when the session id is a key of the map, reset_session answers
200 with the reset-successfully message, removes exactly that entry (the
key no longer resolves, every other key resolves as before, and the size
drops by one); when it is not a key, it answers 200 with the not-found
message and leaves the state untouched, raising no error either way. -/
theorem reset_session_total (st : AppState) (sid t : String)
    (hnd : (st.conversation_chains.map Prod.fst).Nodup) :
    ((st.conversation_chains.lookup sid).isSome →
      (reset_session sid st).1
          = Except.ok ("Session " ++ sid ++ " reset successfully") ∧
      (reset_session sid st).2.conversation_chains.lookup sid = none ∧
      (reset_session sid st).2.conversation_chains.length + 1
          = st.conversation_chains.length ∧
      (t ≠ sid →
        (reset_session sid st).2.conversation_chains.lookup t
          = st.conversation_chains.lookup t)) ∧
    (st.conversation_chains.lookup sid = none →
      (reset_session sid st).1 = Except.ok ("Session " ++ sid ++ " not found") ∧
      (reset_session sid st).2 = st) := by
  constructor
  · intro h
    unfold reset_session
    rw [if_pos h]
    refine ⟨rfl, lookup_eraseP_self _ _ hnd, ?_, ?_⟩
    · obtain ⟨c, hc⟩ := Option.isSome_iff_exists.mp h
      have hm : (sid, c) ∈ st.conversation_chains := lookup_mem hc
      have hp : (fun p : String × Chain => p.1 == sid) (sid, c) = true := by simp
      rw [List.length_eraseP_of_mem hm hp]
      have := List.length_pos_of_mem hm
      omega
    · intro hts
      exact lookup_eraseP_other _ _ _ hts
  · intro h
    unfold reset_session
    rw [if_neg (by simp [h])]
    exact ⟨rfl, rfl⟩

/-- C10 witness: with only session a stored, resetting a removes it and
reports success; resetting the unknown session b reports not found and
changes nothing. -/
theorem reset_session_total_witness :
    ((reset_session "a" (chatStep "a" initState)).1
        = Except.ok ("Session " ++ "a" ++ " reset successfully") ∧
     (reset_session "a" (chatStep "a" initState)).2.conversation_chains.lookup "a"
        = none) ∧
    ((reset_session "b" (chatStep "a" initState)).1
        = Except.ok ("Session " ++ "b" ++ " not found") ∧
     (reset_session "b" (chatStep "a" initState)).2 = chatStep "a" initState) := by
  constructor
  · have h := (reset_session_total (chatStep "a" initState) "a" "b"
      (by decide)).1 (by decide)
    exact ⟨h.1, h.2.1⟩
  · exact (reset_session_total (chatStep "a" initState) "b" "a"
      (by decide)).2 (by decide)

/-! ## Custom vector store: the cv_embeddings table wrapper -/

/-- Embedding vector, modelled as a list of rationals.  The cosine
distance computed inside the database is kept abstract as a parameter of
the operations. -/
abbrev Emb := List Rat

/-- One row of the cv_embeddings table. -/
structure DBRow where
  id : Nat
  content : String
  metadata : Metadata
  embedding : Emb
deriving DecidableEq, Repr

/-- State of the cv_embeddings table: its rows in insertion order plus the
next value of the serial id column. -/
structure DBState where
  rows : List DBRow
  nextId : Nat
deriving DecidableEq, Repr

/-- External effects of the vector store wrapper, in issue order:
embedding-API calls and SQL statements. -/
inductive StoreEffect where
  | embedQuery (q : String)
  | embedDocuments (texts : List String)
  | sqlSelect (k : Nat)
  | sqlInsert (content : String)
deriving DecidableEq, Repr

/-- Semantics of the hand-written nearest-neighbor SELECT of
similarity_search: rows of cv_embeddings ordered by embedding <=> query
ascending, LIMIT k, each row yielding content, metadata and the reported
similarity 1 - distance.  The <=> cosine-distance operator of the pgvector
extension is the dist parameter. -/
def nnQuery (dist : Emb → Emb → Rat) (table : List DBRow) (q : Emb)
    (k : Nat) : List (String × Metadata × Rat) :=
  ((table.mergeSort
      (fun a b => decide (dist a.embedding q ≤ dist b.embedding q))).take k).map
    (fun r => (r.content, r.metadata, 1 - dist r.embedding q))

/-- Embedding of CustomPGVector.similarity_search: embed the query once,
run the nearest-neighbor query once, and convert each returned row to a
Document; nothing else. -/
def similarity_search (embed_query : String → Emb) (dist : Emb → Emb → Rat)
    (table : List DBRow) (query : String) (k : Nat) :
    List Doc × List StoreEffect :=
  let query_embedding := embed_query query
  let rows := nnQuery dist table query_embedding k
  (rows.map (fun r => { page_content := r.1, metadata := r.2.1 }),
   [StoreEffect.embedQuery query, StoreEffect.sqlSelect k])

/-- Semantics of the single INSERT INTO cv_embeddings ... RETURNING id
statement of add_texts. -/
def insertRow (db : DBState) (content : String) (md : Metadata) (e : Emb) :
    Nat × DBState :=
  (db.nextId,
   { rows := db.rows
       ++ [{ id := db.nextId, content := content, metadata := md,
             embedding := e }],
     nextId := db.nextId + 1 })

/-- Loop body of add_texts: one INSERT per (content, metadata, embedding)
triple of the zip, collecting the ids returned by the database. -/
def insertLoop : List (String × Metadata × Emb) → DBState →
    List Nat × DBState × List StoreEffect
  | [], db => ([], db, [])
  | (c, m, e) :: rest, db =>
    let first := insertRow db c m e
    let res := insertLoop rest first.2
    (first.1 :: res.1, res.2.1, StoreEffect.sqlInsert c :: res.2.2)

/-- Embedding of CustomPGVector.add_texts.  The embed_documents call is
modelled pointwise (one embedding per text); the falsy test on metadatas
mirrors the Python if not metadatas, which also fires on an empty list. -/
def add_texts (embed_doc : String → Emb) (texts : List String)
    (metadatas : Option (List Metadata)) (db : DBState) :
    List String × DBState × List StoreEffect :=
  let embeddings := texts.map embed_doc
  let ms : List Metadata :=
    match metadatas with
    | none => texts.map (fun _ => [])
    | some l => if l.isEmpty then texts.map (fun _ => []) else l
  let res := insertLoop (texts.zip (ms.zip embeddings)) db
  (res.1.map (fun i => toString i), res.2.1,
   StoreEffect.embedDocuments texts :: res.2.2)

/-- Projection of a table row to everything but its id. -/
def projRow (r : DBRow) : String × Metadata × Emb :=
  (r.content, r.metadata, r.embedding)

theorem insertLoop_spec (items : List (String × Metadata × Emb)) :
    ∀ db : DBState,
      (insertLoop items db).1 = List.range' db.nextId items.length ∧
      (insertLoop items db).2.1.nextId = db.nextId + items.length ∧
      (insertLoop items db).2.1.rows.map projRow
        = db.rows.map projRow ++ items ∧
      (insertLoop items db).2.2
        = items.map (fun it => StoreEffect.sqlInsert it.1) := by
  induction items with
  | nil =>
    intro db
    exact ⟨rfl, rfl, by simp [insertLoop], rfl⟩
  | cons it rest ih =>
    intro db
    obtain ⟨c, m, e⟩ := it
    obtain ⟨h1, h2, h3, h4⟩ := ih (insertRow db c m e).2
    have hrows : (insertRow db c m e).2.rows
        = db.rows ++ [⟨db.nextId, c, m, e⟩] := rfl
    simp only [insertLoop]
    refine ⟨?_, ?_, ?_, ?_⟩
    · rw [h1, List.length_cons, List.range'_succ]
      rfl
    · rw [h2]
      show db.nextId + 1 + rest.length = db.nextId + (rest.length + 1)
      omega
    · rw [h3, hrows, List.map_append]
      simp [projRow]
    · rw [h4]
      rfl

theorem zip_map_same {α β γ : Type} (f : α → β) (g : α → γ) (l : List α) :
    l.zip ((l.map f).zip (l.map g)) = l.map (fun a => (a, f a, g a)) := by
  induction l with
  | nil => rfl
  | cons a rest ih => simp [ih]

/-- C1: similarity_search embeds the query once and issues one SQL select,
returns at most k documents, and those documents are exactly the rows of
the table sorted by ascending distance of their embedding to the query
embedding, truncated to k and converted to Documents with no further
caching, filtering or reordering. -/
theorem similarity_search_spec (embed_query : String → Emb)
    (dist : Emb → Emb → Rat) (table : List DBRow) (query : String)
    (k : Nat) :
    ((similarity_search embed_query dist table query k).2
        = [StoreEffect.embedQuery query, StoreEffect.sqlSelect k]) ∧
    ((similarity_search embed_query dist table query k).1.length ≤ k) ∧
    (∃ sorted : List DBRow,
      sorted.Perm table ∧
      sorted.Pairwise (fun a b =>
        dist a.embedding (embed_query query)
          ≤ dist b.embedding (embed_query query)) ∧
      (similarity_search embed_query dist table query k).1
        = (sorted.take k).map
            (fun r => { page_content := r.content, metadata := r.metadata })) := by
  refine ⟨rfl, ?_, ?_⟩
  · simp only [similarity_search, nnQuery, List.length_map, List.length_take]
    exact min_le_left _ _
  · refine ⟨table.mergeSort
      (fun a b => decide (dist a.embedding (embed_query query)
        ≤ dist b.embedding (embed_query query))), ?_, ?_, ?_⟩
    · exact List.mergeSort_perm table _
    · have h := @List.sorted_mergeSort DBRow
        (fun a b => decide (dist a.embedding (embed_query query)
          ≤ dist b.embedding (embed_query query)))
        (fun a b c hab hbc => by
          simp only [decide_eq_true_eq] at hab hbc ⊢
          exact le_trans hab hbc)
        (fun a b => by
          simp only [Bool.or_eq_true, decide_eq_true_eq]
          exact le_total _ _)
        table
      exact h.imp (fun hab => by simpa using hab)
    · simp only [similarity_search, nnQuery, List.map_map]
      rfl

/-- C5: add_texts embeds all texts, runs one INSERT per text, substitutes
an empty metadata object per text when metadatas is None, and returns one
id string per text, the decimal serial ids in table order. -/
theorem add_texts_spec (embed_doc : String → Emb) (texts : List String)
    (metadatas : Option (List Metadata)) (db : DBState)
    (hm : ∀ l, metadatas = some l → l = [] ∨ l.length = texts.length) :
    ((add_texts embed_doc texts metadatas db).1.length = texts.length) ∧
    ((add_texts embed_doc texts metadatas db).1
        = (List.range' db.nextId texts.length).map (fun i => toString i)) ∧
    ((add_texts embed_doc texts metadatas db).2.2
        = StoreEffect.embedDocuments texts
            :: texts.map (fun t => StoreEffect.sqlInsert t)) ∧
    (metadatas = none →
      (add_texts embed_doc texts metadatas db).2.1.rows.map projRow
        = db.rows.map projRow
            ++ texts.map (fun t => (t, ([] : Metadata), embed_doc t))) := by
  have hms : (match metadatas with
      | none => texts.map (fun _ => ([] : Metadata))
      | some l => if l.isEmpty then texts.map (fun _ => ([] : Metadata))
                  else l).length = texts.length := by
    cases metadatas with
    | none => simp
    | some l =>
      rcases hm l rfl with h | h
      · simp [h]
      · by_cases hle : l.isEmpty
        · simp [hle]
        · simp [hle, h]
  have hitems : (texts.zip
      ((match metadatas with
        | none => texts.map (fun _ => ([] : Metadata))
        | some l => if l.isEmpty then texts.map (fun _ => ([] : Metadata))
                    else l).zip (texts.map embed_doc))).length
      = texts.length := by
    rw [List.length_zip, List.length_zip, hms, List.length_map]
    omega
  have hfst : (texts.zip
      ((match metadatas with
        | none => texts.map (fun _ => ([] : Metadata))
        | some l => if l.isEmpty then texts.map (fun _ => ([] : Metadata))
                    else l).zip (texts.map embed_doc))).map Prod.fst
      = texts := by
    apply List.map_fst_zip
    rw [List.length_zip, hms, List.length_map]
    omega
  obtain ⟨h1, h2, h3, h4⟩ := insertLoop_spec (texts.zip
      ((match metadatas with
        | none => texts.map (fun _ => ([] : Metadata))
        | some l => if l.isEmpty then texts.map (fun _ => ([] : Metadata))
                    else l).zip (texts.map embed_doc))) db
  refine ⟨?_, ?_, ?_, ?_⟩
  · show ((insertLoop _ db).1.map _).length = texts.length
    rw [List.length_map, h1, List.length_range', hitems]
  · show (insertLoop _ db).1.map _ = _
    rw [h1, hitems]
  · show StoreEffect.embedDocuments texts :: (insertLoop _ db).2.2 = _
    rw [h4]
    congr 1
    calc (texts.zip _).map (fun it => StoreEffect.sqlInsert it.1)
        = ((texts.zip _).map Prod.fst).map
            (fun t => StoreEffect.sqlInsert t) := by
          rw [List.map_map]; rfl
      _ = texts.map (fun t => StoreEffect.sqlInsert t) := by rw [hfst]
  · intro hnone
    subst hnone
    show (insertLoop (texts.zip ((texts.map (fun _ => ([] : Metadata))).zip
        (texts.map embed_doc))) db).2.1.rows.map projRow = _
    have heq : texts.zip ((texts.map (fun _ => ([] : Metadata))).zip
        (texts.map embed_doc))
        = texts.map (fun t => (t, ([] : Metadata), embed_doc t)) :=
      zip_map_same _ _ texts
    have := (insertLoop_spec (texts.map
        (fun t => (t, ([] : Metadata), embed_doc t))) db).2.2.1
    rw [heq, this]

/-- C5 witness: inserting two texts with no metadata into a table whose
serial counter is at 5 yields ids 5 and 6 as strings, in input order. -/
theorem add_texts_spec_witness :
    (add_texts (fun _ => ([] : Emb)) ["x", "y"] none ⟨[], 5⟩).1
      = ["5", "6"] := by
  have h := (add_texts_spec (fun _ => ([] : Emb)) ["x", "y"] none ⟨[], 5⟩
    (fun l hl => by cases hl)).2.1
  rw [h]
  decide

/-! ## The /chat endpoint -/

/-- Result dict of chain.invoke: the answer plus the source documents
returned because return_source_documents is set. -/
structure ChainResult where
  answer : String
  source_documents : List Doc
deriving DecidableEq, Repr

/-- Request body of /chat (pydantic model ChatMessage). -/
structure ChatMessage where
  message : String
  session_id : Option String
deriving DecidableEq, Repr

/-- Response body of /chat (pydantic model ChatResponse). -/
structure ChatResponse where
  response : String
  session_id : String
  sources : List String
  conversation_id : String
deriving DecidableEq, Repr

/-- An HTTPException raised by a handler: status code and detail. -/
structure HTTPError where
  status : Nat
  detail : String
deriving DecidableEq, Repr

/-- Observable effects of one /chat request beyond the session map. -/
inductive ChatEffect where
  | invokeChain (chain_id : Nat) (question : String)
  | dbLogInsert (session_id question answer : String)
deriving DecidableEq, Repr

/-- Embedding of the /chat handler chat_with_cv_bot.  The now argument is
the string rendering of datetime.utcnow().timestamp(); invoke is the
outcome of chain.invoke on the chain with the given object id, an error
modelling a raised exception; the chat_logs write is best-effort and
cannot fail the request.  The or-expression choosing the session id is
falsy both on None and on the empty string, as in Python. -/
def chat_with_cv_bot (invoke : Nat → String → Except String ChainResult)
    (now : String) (msg : ChatMessage) (st : AppState) :
    Except HTTPError ChatResponse × AppState × List ChatEffect :=
  let session_id :=
    match msg.session_id with
    | none => "session_" ++ now
    | some s => if s = "" then "session_" ++ now else s
  let chain := (get_conversation_chain session_id st).1
  let st1 := (get_conversation_chain session_id st).2
  match invoke chain.id msg.message with
  | Except.ok result =>
    let sources := extract_sources result.source_documents
    (Except.ok
       { response := result.answer, session_id := session_id,
         sources := sources, conversation_id := session_id },
     st1,
     [ChatEffect.invokeChain chain.id msg.message,
      ChatEffect.dbLogInsert session_id msg.message result.answer])
  | Except.error e =>
    (Except.error
       { status := 500, detail := "Failed to process chat message: " ++ e },
     st1,
     [ChatEffect.invokeChain chain.id msg.message])

/-- Recogniser for chain invocation effects. -/
def isInvoke : ChatEffect → Bool
  | ChatEffect.invokeChain _ _ => true
  | _ => false

/-- C7: every /chat request invokes the conversation chain exactly once,
and when the invocation raises, the handler fails at once with a single
HTTP 500 whose detail begins with the fixed failure prefix. -/
theorem chat_no_retry (invoke : Nat → String → Except String ChainResult)
    (now : String) (msg : ChatMessage) (st : AppState) :
    ((chat_with_cv_bot invoke now msg st).2.2.countP isInvoke = 1) ∧
    (∀ err, (chat_with_cv_bot invoke now msg st).1 = Except.error err →
      err.status = 500 ∧
      ∃ rest, err.detail = "Failed to process chat message:" ++ rest) := by
  simp only [chat_with_cv_bot]
  cases hinv : invoke (get_conversation_chain
      (match msg.session_id with
       | none => "session_" ++ now
       | some s => if s = "" then "session_" ++ now else s) st).1.id
      msg.message with
  | ok result =>
    refine ⟨by simp [List.countP_cons, isInvoke], ?_⟩
    intro err herr
    simp at herr
  | error e =>
    refine ⟨by simp [List.countP_cons, isInvoke], ?_⟩
    intro err herr
    simp only [Except.error.injEq] at herr
    subst herr
    refine ⟨rfl, " " ++ e, ?_⟩
    show "Failed to process chat message: " ++ e
      = "Failed to process chat message:" ++ (" " ++ e)
    rw [← String.append_assoc]
    congr 1

/-- C7 witness: a failing invocation yields one chain call and a 500 with
the failure prefix. -/
theorem chat_no_retry_witness :
    ((chat_with_cv_bot (fun _ _ => Except.error "boom") "1"
        ⟨"q", none⟩ initState).2.2.countP isInvoke = 1) ∧
    (∃ err, (chat_with_cv_bot (fun _ _ => Except.error "boom") "1"
        ⟨"q", none⟩ initState).1 = Except.error err ∧
      err.status = 500 ∧
      ∃ rest, err.detail = "Failed to process chat message:" ++ rest) := by
  constructor
  · exact (chat_no_retry (fun _ _ => Except.error "boom") "1"
      ⟨"q", none⟩ initState).1
  · refine ⟨{ status := 500,
              detail := "Failed to process chat message: " ++ "boom" },
      rfl, ?_⟩
    exact (chat_no_retry (fun _ _ => Except.error "boom") "1"
      ⟨"q", none⟩ initState).2 _ rfl

/-- C8: when the request carries no session id, the generated id is the
string session_ followed by the timestamp, and in every successful
response session_id equals conversation_id. -/
theorem chat_session_id_fields (invoke : Nat → String → Except String ChainResult)
    (now : String) (msg : ChatMessage) (st : AppState) :
    (msg.session_id = none →
      ∀ r, (chat_with_cv_bot invoke now msg st).1 = Except.ok r →
        r.session_id = "session_" ++ now) ∧
    (∀ r, (chat_with_cv_bot invoke now msg st).1 = Except.ok r →
      r.session_id = r.conversation_id) := by
  simp only [chat_with_cv_bot]
  cases hinv : invoke (get_conversation_chain
      (match msg.session_id with
       | none => "session_" ++ now
       | some s => if s = "" then "session_" ++ now else s) st).1.id
      msg.message with
  | ok result =>
    constructor
    · intro hnone r hr
      simp only [Except.ok.injEq] at hr
      subst hr
      simp [hnone]
    · intro r hr
      simp only [Except.ok.injEq] at hr
      subst hr
      rfl
  | error e =>
    constructor
    · intro hnone r hr
      simp at hr
    · intro r hr
      simp at hr

/-- C8 witness: omitted session id, successful invocation. -/
theorem chat_session_id_fields_witness :
    ∃ r, (chat_with_cv_bot (fun _ _ => Except.ok ⟨"hi", []⟩) "123"
        ⟨"q", none⟩ initState).1 = Except.ok r ∧
      r.session_id = "session_" ++ "123" ∧
      r.session_id = r.conversation_id := by
  refine ⟨{ response := "hi", session_id := "session_" ++ "123",
            sources := [], conversation_id := "session_" ++ "123" },
    rfl, ?_, ?_⟩
  · exact (chat_session_id_fields (fun _ _ => Except.ok ⟨"hi", []⟩) "123"
      ⟨"q", none⟩ initState).1 rfl _ rfl
  · exact (chat_session_id_fields (fun _ _ => Except.ok ⟨"hi", []⟩) "123"
      ⟨"q", none⟩ initState).2 _ rfl

/-- C9: the sources list of a chat response is duplicate-free, contains a
title exactly when some source document carries it, keeps titles in order
of first occurrence (it equals the first-occurrence deduplication of the
title sequence), and a document without a title metadata entry
contributes the default title CV Section. -/
theorem extract_sources_spec (docs : List Doc) :
    (extract_sources docs).Nodup ∧
    (∀ t, t ∈ extract_sources docs ↔ t ∈ docs.map titleOf) ∧
    extract_sources docs = dedupFirst (docs.map titleOf) ∧
    (∀ d, d.metadata.lookup "title" = none → titleOf d = "CV Section") := by
  refine ⟨?_, ?_, extract_sources_eq_dedupFirst docs, ?_⟩
  · rw [extract_sources_eq_dedupFirst]
    exact dedupFirst_nodup _
  · intro t
    rw [extract_sources_eq_dedupFirst]
    exact mem_dedupFirst _ t
  · intro d h
    simp [titleOf, h]

/-- Three source documents with a duplicated title and one untitled one. -/
def docsExample : List Doc :=
  [ { page_content := "a", metadata := [("title", "Projects"), ("source", "cv")] },
    { page_content := "b", metadata := [] },
    { page_content := "c", metadata := [("title", "Projects")] } ]

/-- C9 witness: on a concrete document list the sources are deduplicated
in first-occurrence order, and the untitled document got CV Section. -/
theorem extract_sources_spec_witness :
    (extract_sources docsExample).Nodup ∧
    extract_sources docsExample = ["Projects", "CV Section"] ∧
    titleOf { page_content := "b", metadata := [] } = "CV Section" :=
  ⟨(extract_sources_spec docsExample).1, by decide,
   (extract_sources_spec docsExample).2.2.2 _ rfl⟩

end CVChatbot
